import Mathlib

/-!
Verification of the strategy schema validation and sanitization engine
(`strategy_validator.py`).

The Python module works on already-parsed JSON values (dicts, lists,
strings, ints, floats, booleans, None).  We embed those values as the
inductive type `Value`; Python floats are modelled as exact rationals
(none of the verified properties depends on rounding).  Python `bool`
is a subclass of `int`, so `isinstance(x, int)` and `isinstance(x,
(int, float))` accept booleans; the helpers below reproduce that.

Python exceptions raised by the module (`AttributeError` from calling
`.strip()` / `.lower()` / `.get()` on a non-string / non-dict,
`ValueError` / `TypeError` from `int()` / `float()` and from `in` /
subscription on unsupported types) are modelled with `Except PyErr`.
-/

inductive Value where
  | vInt : Int → Value
  | vFloat : ℚ → Value
  | vStr : String → Value
  | vBool : Bool → Value
  | vNone : Value
  | vList : List Value → Value
  | vDict : List (String × Value) → Value

inductive PyErr where
  | attributeError : PyErr
  | valueError : PyErr
  | typeError : PyErr
  | keyError : PyErr
deriving DecidableEq

/-- Whether a value is a Python dict (`isinstance(x, dict)`). -/
def Value.isDictB : Value → Bool
  | .vDict _ => true
  | _ => false

/-- First-match association lookup: Python dicts have unique keys, so a
first-match lookup on the association list is faithful. -/
def dictFind : List (String × Value) → String → Option Value
  | [], _ => none
  | (k, v) :: rest, key => if k = key then some v else dictFind rest key

/-- Python `d.get(key, dflt)`. -/
def dictGetD (kvs : List (String × Value)) (key : String) (dflt : Value) : Value :=
  (dictFind kvs key).getD dflt

/-- Python `key in d` for a dict. -/
def dictMem (kvs : List (String × Value)) (key : String) : Bool :=
  (dictFind kvs key).isSome

/-- Python `d[key]`, used only under a prior membership guard (where
`KeyError` cannot happen), hence the junk default. -/
def dictGetV (kvs : List (String × Value)) (key : String) : Value :=
  dictGetD kvs key .vNone

/-- Python `x == "lit"` where `x` is an arbitrary value: only equal when
`x` is the very string (no Python value of another type compares equal
to a `str`). -/
def valueIsStrLit (v : Value) (s : String) : Bool :=
  match v with
  | .vStr t => t = s
  | _ => false

/-- Python `x in listOfStringLiterals`: membership via `==`, which for a
list of string literals only ever matches an equal string. -/
def valueIsStrIn (v : Value) (ss : List String) : Bool :=
  match v with
  | .vStr t => ss.contains t
  | _ => false

/-- Python `isinstance(x, (int, float))`; `bool` is a subclass of `int`. -/
def pyIsinstanceNum : Value → Bool
  | .vInt _ => true
  | .vFloat _ => true
  | .vBool _ => true
  | _ => false

/-- Python `isinstance(x, int)`; `bool` is a subclass of `int`. -/
def pyIsinstanceInt : Value → Bool
  | .vInt _ => true
  | .vBool _ => true
  | _ => false

/-- Numeric value of a Python `int` instance (only applied under an
`isinstance(x, int)` guard; junk `0` otherwise). -/
def pyIntValOf : Value → Int
  | .vInt n => n
  | .vBool b => if b then 1 else 0
  | _ => 0

/-- Characters stripped by Python `str.strip()` with no argument
(ASCII whitespace; the Unicode whitespace Python also strips is not
modelled — no registry name or message contains it). -/
def wsChar (c : Char) : Bool :=
  c == ' ' || c == '\t' || c == '\n' || c == '\r' || c == '\x0b' || c == '\x0c'

def dropTrailingWS (l : List Char) : List Char :=
  (l.reverse.dropWhile wsChar).reverse

def stripChars (l : List Char) : List Char :=
  dropTrailingWS (l.dropWhile wsChar)

/-- Python `s.strip()` on a string. -/
def pyStripStr (s : String) : String :=
  String.mk (stripChars s.data)

/-- Python `x.strip()`: only `str` has `.strip`. -/
def pyStripOf : Value → Except PyErr String
  | .vStr s => .ok (pyStripStr s)
  | _ => .error .attributeError

/-- Python `s.lower()` (ASCII case folding; non-ASCII case folding is
not modelled — all registry names are ASCII). -/
def lowerString (s : String) : String :=
  String.mk (s.data.map Char.toLower)

/-- Python `x.lower()`: only `str` has `.lower`. -/
def pyLowerOf : Value → Except PyErr String
  | .vStr s => .ok (lowerString s)
  | _ => .error .attributeError

def digitsVal (l : List Char) : Nat :=
  l.foldl (fun a c => 10 * a + (c.toNat - '0'.toNat)) 0

/-- Python `int(s)` for a string `s`: surrounding whitespace, an
optional sign, then decimal digits.  (Underscore digit separators and
non-ASCII digits, which Python also accepts, are not modelled.) -/
def pyIntOfString (s : String) : Except PyErr Int :=
  let l := stripChars s.data
  match l with
  | '+' :: rest =>
    if !rest.isEmpty && rest.all Char.isDigit then .ok (Int.ofNat (digitsVal rest))
    else .error .valueError
  | '-' :: rest =>
    if !rest.isEmpty && rest.all Char.isDigit then .ok (-(Int.ofNat (digitsVal rest)))
    else .error .valueError
  | _ =>
    if !l.isEmpty && l.all Char.isDigit then .ok (Int.ofNat (digitsVal l))
    else .error .valueError

/-- Truncation toward zero, the behaviour of Python `int(float)`. -/
def ratTrunc (q : ℚ) : Int :=
  Int.tdiv q.num (Int.ofNat q.den)

/-- Python `int(x)`: ints and bools pass through, floats truncate
toward zero, strings parse or raise `ValueError`, everything else
raises `TypeError`. -/
def pyIntConv : Value → Except PyErr Int
  | .vInt n => .ok n
  | .vBool b => .ok (if b then 1 else 0)
  | .vFloat q => .ok (ratTrunc q)
  | .vStr s => pyIntOfString s
  | _ => .error .typeError

def splitOnChar (sep : Char) : List Char → List Char × Option (List Char)
  | [] => ([], none)
  | c :: rest =>
    if c == sep then ([], some rest)
    else
      match splitOnChar sep rest with
      | (a, b) => (c :: a, b)

/-- Mantissa of a Python float literal: `digits [. digits]` with at
least one digit overall. -/
def parseMant (l : List Char) : Option ℚ :=
  match splitOnChar '.' l with
  | (ip, none) =>
    if !ip.isEmpty && ip.all Char.isDigit then some ((digitsVal ip : Int) : ℚ) else none
  | (ip, some fp) =>
    if (!ip.isEmpty || !fp.isEmpty) && ip.all Char.isDigit && fp.all Char.isDigit then
      some (((digitsVal ip : Int) : ℚ) + ((digitsVal fp : Int) : ℚ) / (10 : ℚ) ^ fp.length)
    else none

/-- Exponent of a Python float literal: optional sign then digits. -/
def parseExp (l : List Char) : Option Int :=
  match l with
  | '+' :: rest =>
    if !rest.isEmpty && rest.all Char.isDigit then some (Int.ofNat (digitsVal rest)) else none
  | '-' :: rest =>
    if !rest.isEmpty && rest.all Char.isDigit then some (-(Int.ofNat (digitsVal rest))) else none
  | _ => if !l.isEmpty && l.all Char.isDigit then some (Int.ofNat (digitsVal l)) else none

def applyExp (q : ℚ) (e : Int) : ℚ :=
  if 0 ≤ e then q * (10 : ℚ) ^ e.toNat else q / (10 : ℚ) ^ (-e).toNat

def parseFloatBody (l : List Char) : Option ℚ :=
  match splitOnChar 'e' l with
  | (m, some ex) =>
    match parseMant m, parseExp ex with
    | some q, some e => some (applyExp q e)
    | _, _ => none
  | (_, none) =>
    match splitOnChar 'E' l with
    | (m, some ex) =>
      match parseMant m, parseExp ex with
      | some q, some e => some (applyExp q e)
      | _, _ => none
    | (_, none) => parseMant l

def parseFloatChars (l : List Char) : Option ℚ :=
  match l with
  | '+' :: rest => parseFloatBody rest
  | '-' :: rest => (parseFloatBody rest).map Neg.neg
  | _ => parseFloatBody l

/-- Python `float(s)` for a string (`inf` / `nan` / underscore
separators are not modelled; the value is kept exact as a rational). -/
def pyFloatOfString (s : String) : Except PyErr ℚ :=
  match parseFloatChars (stripChars s.data) with
  | some q => .ok q
  | none => .error .valueError

/-- Python `float(x)`. -/
def pyFloatConv : Value → Except PyErr ℚ
  | .vInt n => .ok (n : ℚ)
  | .vFloat q => .ok q
  | .vBool b => .ok (if b then 1 else 0)
  | .vStr s => pyFloatOfString s
  | _ => .error .typeError

mutual
/-- Python `repr(x)` (string escaping is not modelled, and the decimal
rendering of a non-integral float is approximated by a fraction; the
module only interpolates these texts into error messages). -/
def pyRepr : Value → String
  | .vInt n => toString n
  | .vFloat q =>
    if q.den = 1 then toString q.num ++ ".0"
    else toString q.num ++ "/" ++ toString q.den
  | .vStr s => "'" ++ s ++ "'"
  | .vBool true => "True"
  | .vBool false => "False"
  | .vNone => "None"
  | .vList xs => "[" ++ String.intercalate ", " (pyReprList xs) ++ "]"
  | .vDict kvs => "\x7b" ++ String.intercalate ", " (pyReprPairs kvs) ++ "\x7d"

def pyReprList : List Value → List String
  | [] => []
  | x :: xs => pyRepr x :: pyReprList xs

def pyReprPairs : List (String × Value) → List String
  | [] => []
  | kv :: kvs => ("'" ++ kv.1 ++ "': " ++ pyRepr kv.2) :: pyReprPairs kvs
end

/-- Python `str(x)`: the string itself for a `str`, `repr(x)` otherwise
(for ints, floats, bools, `None`, lists and dicts, `str` and `repr`
agree). -/
def pyStrOf (v : Value) : String :=
  match v with
  | .vStr s => s
  | v => pyRepr v

def startsWithChars : List Char → List Char → Bool
  | [], _ => true
  | _ :: _, [] => false
  | c :: cs, d :: ds => c == d && startsWithChars cs ds

def substrCheck : List Char → List Char → Bool
  | needle, [] => needle.isEmpty
  | needle, c :: t => startsWithChars needle (c :: t) || substrCheck needle t

/-- Python `key in container` for a string `key`: dict key membership,
list membership via `==`, substring test on a string, `TypeError` on
non-containers. -/
def pyContainsKey : Value → String → Except PyErr Bool
  | .vDict kvs, k => .ok (dictMem kvs k)
  | .vList xs, k => .ok (xs.any (fun x => valueIsStrLit x k))
  | .vStr s, k => .ok (substrCheck k.data s.data)
  | _, _ => .error .typeError

/-- Python `container[key]` for a string `key`: dict subscription
(`KeyError` when absent), `TypeError` on strings, lists and the rest. -/
def pySubscript : Value → String → Except PyErr Value
  | .vDict kvs, k =>
    match dictFind kvs k with
    | some v => .ok v
    | none => .error .keyError
  | _, _ => .error .typeError

/-!
The indicator registry and the fixed operator / timeframe vocabulary
(source lines 11–45).  Entries of the Python registry dict either have
the key `default_period` (when `requires_period` is true) or not, hence
the `Option Int` field.
-/

structure IndSpec where
  requires_period : Bool
  default_period : Option Int
deriving DecidableEq

def VALID_INDICATORS : List (String × IndSpec) :=
  [("close", ⟨false, none⟩),
   ("open", ⟨false, none⟩),
   ("high", ⟨false, none⟩),
   ("low", ⟨false, none⟩),
   ("volume", ⟨false, none⟩),
   ("volume_turnover", ⟨false, none⟩),
   ("sma", ⟨true, some 20⟩),
   ("ema", ⟨true, some 20⟩),
   ("wma", ⟨true, some 20⟩),
   ("hma", ⟨true, some 20⟩),
   ("vwma", ⟨true, some 20⟩),
   ("rsi", ⟨true, some 14⟩),
   ("macd", ⟨true, some 12⟩),
   ("macd_signal", ⟨true, some 9⟩),
   ("adx", ⟨true, some 14⟩),
   ("atr", ⟨true, some 14⟩),
   ("atr_ratio", ⟨true, some 14⟩),
   ("bb_high", ⟨true, some 20⟩),
   ("bb_mid", ⟨true, some 20⟩),
   ("bb_low", ⟨true, some 20⟩),
   ("volume_sma", ⟨true, some 20⟩)]

def VALID_OPERATORS : List String :=
  [">", "<", ">=", "<=", "==", "≈ (approx)"]

def VALID_TIMEFRAMES : List String :=
  ["daily", "weekly", "monthly"]

def lookupIndicator (name : String) : Option IndSpec :=
  (VALID_INDICATORS.find? (fun kv => kv.1 == name)).map (fun kv => kv.2)

def indicatorKeys : List String := VALID_INDICATORS.map (fun kv => kv.1)

/-- Text of `list(VALID_INDICATORS.keys())` in an f-string. -/
def INDICATOR_KEYS_REPR : String :=
  pyRepr (.vList (indicatorKeys.map Value.vStr))

/-- Text of `VALID_OPERATORS` in an f-string. -/
def OPERATORS_REPR : String :=
  pyRepr (.vList (VALID_OPERATORS.map Value.vStr))

/-- Text of `VALID_TIMEFRAMES` in an f-string. -/
def TIMEFRAMES_REPR : String :=
  pyRepr (.vList (VALID_TIMEFRAMES.map Value.vStr))

/-!
The validators (source lines 55–200).  The Python class accumulates
warnings by appending to `self.warnings`; since appending is the only
operation, each embedded validator returns the list of warnings it
emits and the caller concatenates (writer style), which is observably
the same.  `validate_strategy` resets and owns the error list.  The
result type `Except PyErr` captures the exceptions the code can raise.
-/

/-- Timeframe check of `validate_indicator` (source lines 167–170):
either a failure message, or the warnings to emit. -/
def indTimeframeStage (ind : List (String × Value)) (name : String) :
    Option String × List String :=
  match dictFind ind "timeframe" with
  | none => (none, ["'" ++ name ++ "' missing 'timeframe' - defaulting to 'daily'"])
  | some tf =>
    if valueIsStrIn tf VALID_TIMEFRAMES then (none, [])
    else (some ("Invalid timeframe '" ++ pyStrOf tf ++ "'. Valid: " ++ TIMEFRAMES_REPR), [])

/-- Offset check of `validate_indicator` (source lines 173–175). -/
def indOffsetStage (ind : List (String × Value)) : Option String :=
  match dictFind ind "offset" with
  | none => none
  | some ov =>
    if pyIsinstanceInt ov && decide (0 ≤ pyIntValOf ov) then none
    else some "'offset' must be a non-negative integer"

/-- Period check of `validate_indicator` (source lines 178–184).
`params = indicator.get("params", {})` followed by `"period" not in
params` and `params["period"]` can raise on non-container `params`. -/
def indPeriodStage (ind : List (String × Value)) (cfg : IndSpec) (name : String) :
    Except PyErr (Option String × List String) :=
  if cfg.requires_period then
    let params := dictGetD ind "params" (.vDict [])
    match pyContainsKey params "period" with
    | .error e => .error e
    | .ok false =>
      .ok (none, ["'" ++ name ++ "' missing 'period' - defaulting to "
                   ++ toString (cfg.default_period.getD 0)])
    | .ok true =>
      match pySubscript params "period" with
      | .error e => .error e
      | .ok pv =>
        if pyIsinstanceInt pv && decide (1 ≤ pyIntValOf pv) then .ok (none, [])
        else .ok (some ("'" ++ name ++ "' period must be a positive integer"), [])
  else .ok (none, [])

/-- Name, timeframe, offset and period checks of `validate_indicator`
(source lines 158–184), the part of the function before the RHS-only
field checks. -/
def indPre (ind : List (String × Value)) : Except PyErr ((Bool × String) × List String) :=
  match dictFind ind "name" with
  | none => .ok ((false, "Missing 'name' field"), [])
  | some nv =>
    match pyLowerOf nv with
    | .error e => .error e
    | .ok name =>
      match lookupIndicator name with
      | none =>
        .ok ((false, "Unknown indicator '" ++ name ++ "'. Valid indicators: "
                      ++ INDICATOR_KEYS_REPR), [])
      | some cfg =>
        match indTimeframeStage ind name with
        | (some err, ws) => .ok ((false, err), ws)
        | (none, w1) =>
          match indOffsetStage ind with
          | some err => .ok ((false, err), w1)
          | none =>
            match indPeriodStage ind cfg name with
            | .error e => .error e
            | .ok (some err, w2) => .ok ((false, err), w1 ++ w2)
            | .ok (none, w2) => .ok ((true, ""), w1 ++ w2)

/-- RHS-only field checks of `validate_indicator` (source lines
186–198): on the RHS, `multiplier` / `add_offset` must be numeric; on
the LHS their presence only emits warnings. -/
def indRhsStage (ind : List (String × Value)) (side : String) :
    (Bool × String) × List String :=
  if side = "rhs" then
    if dictMem ind "multiplier" && !pyIsinstanceNum (dictGetV ind "multiplier") then
      ((false, "'multiplier' must be a number"), [])
    else if dictMem ind "add_offset" && !pyIsinstanceNum (dictGetV ind "add_offset") then
      ((false, "'add_offset' must be a number"), [])
    else ((true, ""), [])
  else if side = "lhs" then
    ((true, ""),
      (if dictMem ind "multiplier" then
        ["'multiplier' on LHS will be ignored - only valid for RHS"] else []) ++
      (if dictMem ind "add_offset" then
        ["'add_offset' on LHS will be ignored - only valid for RHS"] else []))
  else ((true, ""), [])

/-- `StrategyValidator.validate_indicator` (source lines 155–200). -/
def validate_indicator (ind : List (String × Value)) (side : String) :
    Except PyErr ((Bool × String) × List String) :=
  match indPre ind with
  | .error e => .error e
  | .ok ((false, msg), ws) => .ok ((false, msg), ws)
  | .ok ((true, _), ws) =>
    let rw := indRhsStage ind side
    .ok (rw.1, ws ++ rw.2)

/-- `StrategyValidator.validate_operand` (source lines 131–153). -/
def validate_operand (operand : Value) (side : String) :
    Except PyErr ((Bool × String) × List String) :=
  match operand with
  | .vDict kvs =>
    match dictFind kvs "type" with
    | none => .ok ((false, "Missing 'type' field"), [])
    | some t =>
      if valueIsStrLit t "value" then
        match dictFind kvs "value" with
        | none => .ok ((false, "Value type missing 'value' field"), [])
        | some v =>
          if pyIsinstanceNum v then .ok ((true, ""), [])
          else .ok ((false, "'value' must be a number"), [])
      else if valueIsStrLit t "indicator" then
        validate_indicator kvs side
      else
        .ok ((false, "Invalid type '" ++ pyStrOf t ++ "'. Must be 'indicator' or 'value'"), [])
  | _ => .ok ((false, "Operand must be an object"), [])

/-- The tolerance warning of `validate_condition` (source lines
115–117), emitted when the operator is the approximate operator and no
tolerance is given; `index` is the 0-based condition index. -/
def tolWarnOf (kvs : List (String × Value)) (index : Nat) : List String :=
  if valueIsStrLit (dictGetV kvs "operator") "≈ (approx)" && !dictMem kvs "tolerance" then
    ["Condition " ++ toString (index + 1)
      ++ ": '≈ (approx)' operator without 'tolerance' - defaulting to 1%"]
  else []

/-- `StrategyValidator.validate_condition` (source lines 96–129). -/
def validate_condition (condition : Value) (index : Nat) :
    Except PyErr ((Bool × String) × List String) :=
  match condition with
  | .vDict kvs =>
    if !dictMem kvs "lhs" then .ok ((false, "Missing 'lhs' (left-hand side)"), [])
    else if !dictMem kvs "operator" then .ok ((false, "Missing 'operator'"), [])
    else if !dictMem kvs "rhs" then .ok ((false, "Missing 'rhs' (right-hand side)"), [])
    else if !valueIsStrIn (dictGetV kvs "operator") VALID_OPERATORS then
      .ok ((false, "Invalid operator '" ++ pyStrOf (dictGetV kvs "operator")
                    ++ "'. Valid: " ++ OPERATORS_REPR), [])
    else
      let tw := tolWarnOf kvs index
      match validate_operand (dictGetV kvs "lhs") "lhs" with
      | .error e => .error e
      | .ok ((false, lerr), w1) => .ok ((false, "LHS error: " ++ lerr), tw ++ w1)
      | .ok ((true, _), w1) =>
        match validate_operand (dictGetV kvs "rhs") "rhs" with
        | .error e => .error e
        | .ok ((false, rerr), w2) => .ok ((false, "RHS error: " ++ rerr), tw ++ w1 ++ w2)
        | .ok ((true, _), w2) => .ok ((true, ""), tw ++ w1 ++ w2)
  | _ => .ok ((false, "Condition must be an object"), [])

/-- Name errors of `validate_strategy` (source lines 71–74). -/
def nameErrs (kvs : List (String × Value)) : List String :=
  match dictFind kvs "name" with
  | none => ["Missing required field: 'name'"]
  | some (.vStr s) =>
    if (pyStripStr s).isEmpty then ["'name' must be a non-empty string"] else []
  | some _ => ["'name' must be a non-empty string"]

/-- Description warning of `validate_strategy` (source lines 77–78). -/
def descWarns (kvs : List (String × Value)) : List String :=
  if dictMem kvs "description" then []
  else ["Missing 'description' field - recommended for clarity"]

/-- The loop over the conditions list in `validate_strategy` (source
lines 88–91): every element is validated, each failing one contributes
one `Condition {i+1}: {reason}` error. -/
def validateConditionsLoop : List Value → Nat → Except PyErr (List String × List String)
  | [], _ => .ok ([], [])
  | c :: rest, i =>
    match validate_condition c i with
    | .error e => .error e
    | .ok ((ok1, msg), ws) =>
      match validateConditionsLoop rest (i + 1) with
      | .error e => .error e
      | .ok (es, ws2) =>
        .ok ((if ok1 then es
              else ("Condition " ++ toString (i + 1) ++ ": " ++ msg) :: es), ws ++ ws2)

/-- `StrategyValidator.validate_strategy` (source lines 55–94): returns
`(is_valid, errors, warnings)` with `is_valid = (errors == [])`. -/
def validate_strategy (strategy : Value) : Except PyErr (Bool × List String × List String) :=
  match strategy with
  | .vDict kvs =>
    let e1 := nameErrs kvs
    let w1 := descWarns kvs
    match dictFind kvs "conditions" with
    | none =>
      let es := e1 ++ ["Missing required field: 'conditions'"]
      .ok (es.isEmpty, es, w1)
    | some (.vList cs) =>
      if cs.isEmpty then
        let es := e1 ++ ["'conditions' array cannot be empty"]
        .ok (es.isEmpty, es, w1)
      else
        match validateConditionsLoop cs 0 with
        | .error e => .error e
        | .ok (ces, cws) =>
          let es := e1 ++ ces
          .ok (es.isEmpty, es, w1 ++ cws)
    | some _ =>
      let es := e1 ++ ["'conditions' must be an array"]
      .ok (es.isEmpty, es, w1)
  | _ => .ok (false, ["Strategy must be a JSON object"], [])

/-!
The sanitizer (source lines 202–306).  `_sanitize_operand` returns
`none` (Python `None`) for an unrepairable operand, and may raise:
`int(operand.get("offset", 0))` raises on an unconvertible offset,
`params.get` raises `AttributeError` on a non-dict `params` (only
reached when the indicator requires a period), and
`float(operand.get(...))` raises on an unconvertible `multiplier` /
`add_offset`.  The in-place fixes of `timeframe` / `operator` on a
freshly built dict are modelled by building the dict with the fixed
value at the same position, which yields an identical dict.
-/

/-- The `"value"` branch of `_sanitize_operand` (source lines 261–268);
`float(value)` raises only `ValueError` / `TypeError`, both caught. -/
def sanitizeValueOperand (kvs : List (String × Value)) : Value :=
  let v0 := dictGetD kvs "value" (.vInt 0)
  let v := if pyIsinstanceNum v0 then v0
    else
      match pyFloatConv v0 with
      | .ok q => .vFloat q
      | .error _ => .vInt 0
  .vDict [("type", .vStr "value"), ("value", v)]

/-- The name repair of the indicator branch (source lines 271–273):
`str(operand.get("name", "close")).lower()`, falling back to `"close"`
when the result is not a registry key. -/
def sanitizeName (kvs : List (String × Value)) : String :=
  let name0 := lowerString (pyStrOf (dictGetD kvs "name" (.vStr "close")))
  if (lookupIndicator name0).isSome then name0 else "close"

/-- The timeframe repair of the indicator branch (source lines 278 and
283–284): the given value when valid, `"daily"` otherwise. -/
def sanitizeTf (kvs : List (String × Value)) : Value :=
  let tf0 := dictGetD kvs "timeframe" (.vStr "daily")
  if valueIsStrIn tf0 VALID_TIMEFRAMES then tf0 else .vStr "daily"

/-- The params repair of the indicator branch (source lines 287–295).
`cfg.default_period.getD 0` mirrors `ind_config["default_period"]`,
which cannot fail: every registry entry with `requires_period` true
carries a default.  `params.get` raises `AttributeError` on a non-dict
`params`. -/
def sanitizeParams (kvs : List (String × Value)) (cfg : IndSpec) : Except PyErr Value :=
  if cfg.requires_period then
    match dictGetD kvs "params" (.vDict []) with
    | .vDict pkvs =>
      let dflt : Int := cfg.default_period.getD 0
      let p0 := dictGetD pkvs "period" (.vInt dflt)
      let p := if pyIsinstanceInt p0 && decide (1 ≤ pyIntValOf p0) then p0
               else .vInt dflt
      .ok (.vDict [("period", p)])
    | _ => .error .attributeError
  else .ok (.vDict [])

/-- The RHS-only field coercion of the indicator branch (source lines
298–302): when `key` is present, `float(operand.get(key, d))` as a
one-entry association list, otherwise nothing. -/
def sanitizeFloatField (kvs : List (String × Value)) (key : String) (d : ℚ) :
    Except PyErr (List (String × Value)) :=
  if dictMem kvs key then
    match pyFloatConv (dictGetD kvs key (.vFloat d)) with
    | .error e => .error e
    | .ok q => .ok [(key, .vFloat q)]
  else .ok []

/-- The `"indicator"` branch of `_sanitize_operand` (source lines
270–304). -/
def sanitizeIndicatorOperand (kvs : List (String × Value)) (side : String) :
    Except PyErr Value :=
  let name := sanitizeName kvs
  match pyIntConv (dictGetD kvs "offset" (.vInt 0)) with
  | .error e => .error e
  | .ok offv =>
    let tf := sanitizeTf kvs
    let cfg := (lookupIndicator name).getD ⟨false, none⟩
    match sanitizeParams kvs cfg with
    | .error e => .error e
    | .ok paramsV =>
      let base : List (String × Value) :=
        [("type", .vStr "indicator"), ("name", .vStr name),
         ("timeframe", tf), ("offset", .vInt (max 0 offv)), ("params", paramsV)]
      if side = "rhs" then
        match sanitizeFloatField kvs "multiplier" 1 with
        | .error e => .error e
        | .ok multF =>
          match sanitizeFloatField kvs "add_offset" 0 with
          | .error e => .error e
          | .ok addF => .ok (.vDict (base ++ multF ++ addF))
      else .ok (.vDict base)

/-- `StrategyValidator._sanitize_operand` (source lines 254–306). -/
def _sanitize_operand (operand : Value) (side : String) : Except PyErr (Option Value) :=
  match operand with
  | .vDict kvs =>
    let t := dictGetD kvs "type" (.vStr "indicator")
    if valueIsStrLit t "value" then .ok (some (sanitizeValueOperand kvs))
    else if valueIsStrLit t "indicator" then
      match sanitizeIndicatorOperand kvs side with
      | .error e => .error e
      | .ok r => .ok (some r)
    else .ok none
  | _ => .ok none

/-- `StrategyValidator._sanitize_condition` (source lines 230–252);
the caller guarantees the condition is a dict.  The LHS operand is
sanitized before the RHS one (dict-literal evaluation order), so an
exception from the LHS wins; the `None` test on both operands happens
only after both were sanitized. -/
def _sanitize_condition (kvs : List (String × Value)) : Except PyErr (Option Value) :=
  if dictMem kvs "lhs" && dictMem kvs "rhs" then
    match _sanitize_operand (dictGetV kvs "lhs") "lhs" with
    | .error e => .error e
    | .ok lres =>
      match _sanitize_operand (dictGetV kvs "rhs") "rhs" with
      | .error e => .error e
      | .ok rres =>
        match lres, rres with
        | some lv, some rv =>
          let op0 := dictGetD kvs "operator" (.vStr ">")
          let opF := if valueIsStrIn op0 VALID_OPERATORS then op0 else .vStr ">"
          let base : List (String × Value) := [("lhs", lv), ("operator", opF), ("rhs", rv)]
          let d := if valueIsStrLit opF "≈ (approx)" then
              base ++ [("tolerance", dictGetD kvs "tolerance" (.vFloat 1))]
            else base
          .ok (some (.vDict d))
        | _, _ => .ok none
  else .ok none

/-- The loop over `conditions` in `sanitize_strategy` (source lines
220–226): non-dict elements are skipped, unrepairable conditions are
dropped. -/
def sanitizeCondListLoop : List Value → Except PyErr (List Value)
  | [] => .ok []
  | c :: rest =>
    match c with
    | .vDict kvs =>
      match _sanitize_condition kvs with
      | .error e => .error e
      | .ok none => sanitizeCondListLoop rest
      | .ok (some sc) =>
        match sanitizeCondListLoop rest with
        | .error e => .error e
        | .ok scs => .ok (sc :: scs)
    | _ => sanitizeCondListLoop rest

/-- `StrategyValidator.sanitize_strategy` (source lines 202–228).
`strategy.get("name", "Unnamed Strategy").strip()` raises
`AttributeError` when a `name` key holds a non-string. -/
def sanitize_strategy (strategy : Value) : Except PyErr Value :=
  match strategy with
  | .vDict kvs =>
    match pyStripOf (dictGetD kvs "name" (.vStr "Unnamed Strategy")) with
    | .error e => .error e
    | .ok nm =>
      let desc := dictGetD kvs "description" (.vStr "")
      let conditions :=
        match dictGetD kvs "conditions" (.vList []) with
        | .vList cs => cs
        | _ => []
      match sanitizeCondListLoop conditions with
      | .error e => .error e
      | .ok scs =>
        .ok (.vDict [("name", .vStr nm), ("description", desc),
                     ("conditions", .vList scs)])
  | _ =>
    .ok (.vDict [("name", .vStr "Invalid Strategy"), ("description", .vStr ""),
                 ("conditions", .vList [])])

/-!
Spec-side definitions used by the theorem statements.
-/

/-- The error entry a condition at 0-based index `p.1` contributes to
`validate_strategy`'s error list: one `Condition {i+1}: {reason}` entry
when it fails, nothing when it passes. -/
def condErrF (p : Nat × Value) : Option String :=
  match validate_condition p.2 p.1 with
  | .ok ((false, m), _) => some ("Condition " ++ toString (p.1 + 1) ++ ": " ++ m)
  | _ => none

/-- The association list underlying every indicator operand produced by
`sanitizeIndicatorOperand`. -/
def sanIndDict (name : String) (tf : Value) (off : Int) (paramsV : Value)
    (extra : List (String × Value)) : List (String × Value) :=
  [("type", .vStr "indicator"), ("name", .vStr name), ("timeframe", tf),
   ("offset", .vInt off), ("params", paramsV)] ++ extra

/-- Shape of the `params` object produced by `sanitizeIndicatorOperand`
for a registry entry `cfg`. -/
def SanParams (cfg : IndSpec) (paramsV : Value) : Prop :=
  if cfg.requires_period then
    ∃ p, paramsV = .vDict [("period", p)] ∧ pyIsinstanceInt p = true ∧ 1 ≤ pyIntValOf p
  else paramsV = .vDict []

/-- Shape of the RHS-only tail produced by `sanitizeIndicatorOperand`. -/
def SanExtra (side : String) (extra : List (String × Value)) : Prop :=
  if side = "rhs" then
    ∃ m a, extra = m ++ a ∧ (m = [] ∨ ∃ q, m = [("multiplier", Value.vFloat q)]) ∧
      (a = [] ∨ ∃ q, a = [("add_offset", Value.vFloat q)])
  else extra = []

/-- A reusable condition that validates with no errors and no warnings:
`{"lhs": {"type": "value", "value": 1}, "operator": ">",
"rhs": {"type": "value", "value": 2}}`. -/
def goodCond : Value :=
  .vDict [("lhs", .vDict [("type", .vStr "value"), ("value", .vInt 1)]),
          ("operator", .vStr ">"),
          ("rhs", .vDict [("type", .vStr "value"), ("value", .vInt 2)])]

/-!
Theorems.  Each claim of the specification is settled by one theorem
below; shared helper lemmas come first.
-/

/-- Claim C1 (the post-condition `validate(sanitize(x)).is_valid` fails
on the code): sanitizing the empty object yields the fallback strategy
with an empty conditions list, which `validate_strategy` rejects with
`'conditions' array cannot be empty` — so `is_valid` is `False`, not
`True` as the claim requires. -/
theorem sanitize_then_validate_invalid_on_empty_object :
    sanitize_strategy (.vDict []) =
      .ok (.vDict [("name", .vStr "Unnamed Strategy"), ("description", .vStr ""),
                   ("conditions", .vList [])]) ∧
    validate_strategy
        (.vDict [("name", .vStr "Unnamed Strategy"), ("description", .vStr ""),
                 ("conditions", .vList [])]) =
      .ok (false, ["'conditions' array cannot be empty"], []) :=
  ⟨rfl, rfl⟩

/-- Claim C2 (totality of `sanitize_strategy` fails on the code):
on `{"name": 123}` the call `strategy.get("name", ...).strip()` raises
`AttributeError`, so sanitization is not a total, never-raising
function. -/
theorem sanitize_strategy_raises_on_int_name :
    sanitize_strategy (.vDict [("name", .vInt 123)]) = .error .attributeError :=
  rfl

/-- Claim C4 (exception-freedom of `validate_strategy` fails on the
code): on a strategy whose first condition has an indicator operand
with the non-string name `123`, the call `indicator["name"].lower()`
raises `AttributeError`, which escapes `validate_strategy` instead of
being reported in the error list. -/
theorem validate_strategy_raises_on_int_indicator_name :
    validate_strategy
        (.vDict [("name", .vStr "S"),
                 ("conditions", .vList [
                   .vDict [("lhs", .vDict [("type", .vStr "indicator"), ("name", .vInt 123)]),
                           ("operator", .vStr ">"),
                           ("rhs", .vDict [("type", .vStr "value"), ("value", .vInt 1)])]])]) =
      .error .attributeError :=
  rfl

/-- Claim C5, counterexample: sanitizing the non-object input `42`
yields name `"Invalid Strategy"`, which is not the empty string the
claim promises. -/
theorem sanitize_fallback_name_not_empty :
    sanitize_strategy (.vInt 42) =
      .ok (.vDict [("name", .vStr "Invalid Strategy"), ("description", .vStr ""),
                   ("conditions", .vList [])]) ∧
    ("Invalid Strategy" : String) ≠ "" :=
  ⟨rfl, by decide⟩

/-- Claim C5, as amended: sanitizing any non-object input returns the
fallback strategy with name `"Invalid Strategy"` (not an empty name),
empty description and empty conditions list. -/
theorem sanitize_nonobject_fallback (v : Value) (h : v.isDictB = false) :
    sanitize_strategy v =
      .ok (.vDict [("name", .vStr "Invalid Strategy"), ("description", .vStr ""),
                   ("conditions", .vList [])]) := by
  cases v <;> first
  | rfl
  | exact absurd h (by simp [Value.isDictB])

theorem sanitize_nonobject_fallback_witness :
    sanitize_strategy (.vStr "oops") =
      .ok (.vDict [("name", .vStr "Invalid Strategy"), ("description", .vStr ""),
                   ("conditions", .vList [])]) :=
  sanitize_nonobject_fallback (.vStr "oops") rfl

/-- Claim C7, counterexample: in `{"conditions": [goodCond]}` every
condition passes condition validation, yet `validate_strategy` returns
`is_valid = False` because the `name` field is missing — so "every
condition passes" alone does not imply validity. -/
theorem valid_conditions_missing_name_invalid :
    validate_condition goodCond 0 = .ok ((true, ""), []) ∧
    validate_strategy (.vDict [("conditions", .vList [goodCond])]) =
      .ok (false, ["Missing required field: 'name'"],
           ["Missing 'description' field - recommended for clarity"]) :=
  ⟨rfl, rfl⟩

theorem dictFind_append (l1 l2 : List (String × Value)) (k : String) :
    dictFind (l1 ++ l2) k =
      match dictFind l1 k with
      | some v => some v
      | none => dictFind l2 k := by
  induction l1 with
  | nil => simp [dictFind]
  | cons kv rest ih =>
    obtain ⟨k1, v1⟩ := kv
    by_cases h : k1 = k
    · simp [dictFind, h]
    · simp [dictFind, h, ih]

theorem keys_facts : ∀ kv ∈ VALID_INDICATORS,
    lowerString kv.1 = kv.1 ∧ (lookupIndicator kv.1).isSome = true ∧
    (kv.2.requires_period = true → 1 ≤ kv.2.default_period.getD 0) := by decide

theorem lookup_facts (n : String) (spec : IndSpec) (h : lookupIndicator n = some spec) :
    lowerString n = n ∧
    (spec.requires_period = true → 1 ≤ spec.default_period.getD 0) := by
  have hmem : ∃ kv ∈ VALID_INDICATORS, kv.1 = n ∧ kv.2 = spec := by
    unfold lookupIndicator at h
    cases hf : VALID_INDICATORS.find? (fun kv => kv.1 == n) with
    | none => rw [hf] at h; simp at h
    | some kv =>
      rw [hf] at h
      simp at h
      refine ⟨kv, List.mem_of_find?_eq_some hf, ?_, h⟩
      have := List.find?_some hf
      simpa using this
  obtain ⟨kv, hkv, hk1, hk2⟩ := hmem
  have := keys_facts kv hkv
  rw [hk1, hk2] at this
  exact ⟨this.1, this.2.2⟩

/-- The name produced by `sanitizeName` is always a registry key fixed
by lowercasing. -/
theorem sanitizeName_facts (kvs : List (String × Value)) :
    (lookupIndicator (sanitizeName kvs)).isSome = true ∧
    lowerString (sanitizeName kvs) = sanitizeName kvs := by
  unfold sanitizeName
  by_cases h : (lookupIndicator (lowerString (pyStrOf (dictGetD kvs "name" (.vStr "close"))))).isSome = true
  · rcases Option.isSome_iff_exists.mp h with ⟨spec, hs⟩
    rw [if_pos h]
    exact ⟨h, (lookup_facts _ spec hs).1⟩
  · rw [if_neg h]
    constructor <;> decide

/-- The timeframe produced by `sanitizeTf` is always valid. -/
theorem sanitizeTf_valid (kvs : List (String × Value)) :
    valueIsStrIn (sanitizeTf kvs) VALID_TIMEFRAMES = true := by
  unfold sanitizeTf
  by_cases h : valueIsStrIn (dictGetD kvs "timeframe" (.vStr "daily")) VALID_TIMEFRAMES
  · rw [if_pos h]; exact h
  · rw [if_neg h]; decide

/-- The default period of the registry entry a sanitized name resolves
to is positive whenever a period is required. -/
theorem sanCfg_default (nm : String) (h : (lookupIndicator nm).isSome = true) :
    ((lookupIndicator nm).getD ⟨false, none⟩).requires_period = true →
      1 ≤ ((lookupIndicator nm).getD ⟨false, none⟩).default_period.getD 0 := by
  rcases Option.isSome_iff_exists.mp h with ⟨spec, hs⟩
  rw [hs]
  simpa using (lookup_facts nm spec hs).2

/-- A successful `sanitizeParams` returns a params value of the shape
`SanParams` describes. -/
theorem sanitizeParams_shape (kvs : List (String × Value)) (cfg : IndSpec)
    (paramsV : Value)
    (hd : cfg.requires_period = true → 1 ≤ cfg.default_period.getD 0)
    (h : sanitizeParams kvs cfg = .ok paramsV) : SanParams cfg paramsV := by
  unfold sanitizeParams at h
  rcases hrp : cfg.requires_period with _ | _
  · rw [hrp] at h
    simp only [Bool.false_eq_true, if_false, Except.ok.injEq] at h
    simp [SanParams, hrp, ← h]
  · rw [hrp] at h
    simp only [if_true] at h
    cases hm : dictGetD kvs "params" (.vDict []) with
    | vDict pkvs =>
      rw [hm] at h
      simp only [Except.ok.injEq] at h
      simp only [SanParams, hrp, if_true]
      refine ⟨_, h.symm, ?_⟩
      by_cases hc : (pyIsinstanceInt (dictGetD pkvs "period" (.vInt (cfg.default_period.getD 0)))
          && decide (1 ≤ pyIntValOf (dictGetD pkvs "period" (.vInt (cfg.default_period.getD 0))))) = true
      · simp only [hc, if_true]
        simp at hc
        exact ⟨hc.1, hc.2⟩
      · simp only [hc, Bool.false_eq_true, if_false]
        exact ⟨rfl, by simpa [pyIntValOf] using hd hrp⟩
    | vInt n => rw [hm] at h; simp at h
    | vFloat q => rw [hm] at h; simp at h
    | vStr s => rw [hm] at h; simp at h
    | vBool b => rw [hm] at h; simp at h
    | vNone => rw [hm] at h; simp at h
    | vList xs => rw [hm] at h; simp at h

/-- A successful `sanitizeFloatField` is empty or a single coerced
float entry. -/
theorem sanitizeFloatField_shape (kvs : List (String × Value)) (key : String) (d : ℚ)
    (l : List (String × Value)) (h : sanitizeFloatField kvs key d = .ok l) :
    l = [] ∨ ∃ q, l = [(key, Value.vFloat q)] := by
  unfold sanitizeFloatField at h
  by_cases hm : dictMem kvs key
  · rw [if_pos hm] at h
    cases hc : pyFloatConv (dictGetD kvs key (.vFloat d)) with
    | error e => rw [hc] at h; simp at h
    | ok q =>
      rw [hc] at h
      simp only [Except.ok.injEq] at h
      exact Or.inr ⟨q, h.symm⟩
  · rw [if_neg hm] at h
    simp only [Except.ok.injEq] at h
    exact Or.inl h.symm

/-- Re-sanitizing a sanitized indicator operand reproduces it exactly. -/
theorem sanitizeInd_fix (name : String) (tf : Value) (off : Int) (paramsV : Value)
    (extra : List (String × Value)) (side : String)
    (h1 : (lookupIndicator name).isSome = true) (h2 : lowerString name = name)
    (h3 : valueIsStrIn tf VALID_TIMEFRAMES = true) (h4 : 0 ≤ off)
    (h5 : SanParams ((lookupIndicator name).getD ⟨false, none⟩) paramsV)
    (h6 : SanExtra side extra) :
    sanitizeIndicatorOperand (sanIndDict name tf off paramsV extra) side =
      .ok (.vDict (sanIndDict name tf off paramsV extra)) := by
  have hn : sanitizeName (sanIndDict name tf off paramsV extra) = name := by
    simp [sanitizeName, sanIndDict, dictGetD, dictFind_append, dictFind, pyStrOf, h2, h1]
  have htf : sanitizeTf (sanIndDict name tf off paramsV extra) = tf := by
    simp [sanitizeTf, sanIndDict, dictGetD, dictFind_append, dictFind, h3]
  have hoff : dictGetD (sanIndDict name tf off paramsV extra) "offset" (.vInt 0)
      = .vInt off := by
    simp [sanIndDict, dictGetD, dictFind_append, dictFind]
  have hmax : max 0 off = off := max_eq_right h4
  have hpfind : dictGetD (sanIndDict name tf off paramsV extra) "params" (.vDict [])
      = paramsV := by
    simp [sanIndDict, dictGetD, dictFind_append, dictFind]
  have hpar : sanitizeParams (sanIndDict name tf off paramsV extra)
      ((lookupIndicator name).getD ⟨false, none⟩) = .ok paramsV := by
    unfold sanitizeParams
    rcases hrp : ((lookupIndicator name).getD ⟨false, none⟩).requires_period with _ | _ <;>
      simp only [SanParams, hrp, Bool.false_eq_true, if_false, if_true] at h5
    · simp [h5]
    · obtain ⟨p, hp, hpi, hpv⟩ := h5
      subst hp
      simp [hpfind, dictGetD, dictFind, hpi, hpv]
  by_cases hside : side = "rhs"
  · simp only [SanExtra, hside, if_pos, if_true] at h6
    obtain ⟨m, a, hma, hm, ha⟩ := h6
    subst hma
    have hmf : sanitizeFloatField (sanIndDict name tf off paramsV (m ++ a)) "multiplier" 1
        = .ok m := by
      rcases hm with hm | ⟨q2, hm⟩ <;> rcases ha with ha | ⟨q3, ha⟩ <;> subst hm ha <;>
        simp [sanitizeFloatField, dictMem, dictGetD, sanIndDict, dictFind_append,
              dictFind, pyFloatConv]
    have haf : sanitizeFloatField (sanIndDict name tf off paramsV (m ++ a)) "add_offset" 0
        = .ok a := by
      rcases hm with hm | ⟨q2, hm⟩ <;> rcases ha with ha | ⟨q3, ha⟩ <;> subst hm ha <;>
        simp [sanitizeFloatField, dictMem, dictGetD, sanIndDict, dictFind_append,
              dictFind, pyFloatConv]
    unfold sanitizeIndicatorOperand
    rw [hn, hoff]
    simp only [pyIntConv, htf, hpar, hmf, haf, hside, if_true]
    simp [sanIndDict, hmax]
  · simp only [SanExtra, hside, Bool.false_eq_true, if_false, if_neg] at h6
    subst h6
    unfold sanitizeIndicatorOperand
    rw [hn, hoff]
    simp only [pyIntConv, htf, hpar, hside, Bool.false_eq_true, if_false]
    simp [sanIndDict, hmax, hside]

/-- Every successful `sanitizeIndicatorOperand` result has the
`sanIndDict` shape with the invariants `sanitizeInd_fix` needs. -/
theorem sanitizeInd_shape (kvs : List (String × Value)) (side : String) (r : Value)
    (h : sanitizeIndicatorOperand kvs side = .ok r) :
    ∃ name tf off paramsV extra,
      r = .vDict (sanIndDict name tf off paramsV extra) ∧
      (lookupIndicator name).isSome = true ∧ lowerString name = name ∧
      valueIsStrIn tf VALID_TIMEFRAMES = true ∧ 0 ≤ off ∧
      SanParams ((lookupIndicator name).getD ⟨false, none⟩) paramsV ∧
      SanExtra side extra := by
  unfold sanitizeIndicatorOperand at h
  cases hoc : pyIntConv (dictGetD kvs "offset" (.vInt 0)) with
  | error e => rw [hoc] at h; simp at h
  | ok offv =>
    rw [hoc] at h
    simp only [] at h
    cases hpc : sanitizeParams kvs ((lookupIndicator (sanitizeName kvs)).getD ⟨false, none⟩) with
    | error e => rw [hpc] at h; simp at h
    | ok paramsV =>
      rw [hpc] at h
      simp only [] at h
      by_cases hside : side = "rhs"
      · rw [if_pos hside] at h
        cases hmc : sanitizeFloatField kvs "multiplier" 1 with
        | error e => rw [hmc] at h; simp at h
        | ok multF =>
          rw [hmc] at h
          cases hac : sanitizeFloatField kvs "add_offset" 0 with
          | error e => rw [hac] at h; simp at h
          | ok addF =>
            rw [hac] at h
            simp only [Except.ok.injEq] at h
            refine ⟨sanitizeName kvs, sanitizeTf kvs, max 0 offv, paramsV, multF ++ addF,
              ?_, (sanitizeName_facts kvs).1, (sanitizeName_facts kvs).2,
              sanitizeTf_valid kvs, le_max_left 0 offv,
              sanitizeParams_shape _ _ _ (sanCfg_default _ (sanitizeName_facts kvs).1) hpc,
              ?_⟩
            · rw [← h]
              simp [sanIndDict]
            · simp only [SanExtra, hside, if_pos, if_true]
              exact ⟨multF, addF, rfl,
                sanitizeFloatField_shape _ _ _ _ hmc,
                sanitizeFloatField_shape _ _ _ _ hac⟩
      · rw [if_neg hside] at h
        simp only [Except.ok.injEq] at h
        refine ⟨sanitizeName kvs, sanitizeTf kvs, max 0 offv, paramsV, [],
          ?_, (sanitizeName_facts kvs).1, (sanitizeName_facts kvs).2,
          sanitizeTf_valid kvs, le_max_left 0 offv,
          sanitizeParams_shape _ _ _ (sanCfg_default _ (sanitizeName_facts kvs).1) hpc,
          ?_⟩
        · rw [← h]
          simp [sanIndDict]
        · simp [SanExtra, hside]

/-- The `"value"` branch of `_sanitize_operand` always yields a numeric
value field and is a fixed point of itself. -/
theorem sanitizeValue_fix (kvs : List (String × Value)) :
    ∃ v, sanitizeValueOperand kvs = .vDict [("type", .vStr "value"), ("value", v)] ∧
      sanitizeValueOperand [("type", .vStr "value"), ("value", v)]
        = .vDict [("type", .vStr "value"), ("value", v)] := by
  unfold sanitizeValueOperand
  generalize dictGetD kvs "value" (.vInt 0) = w
  by_cases hnum : pyIsinstanceNum w = true
  · refine ⟨w, by simp [hnum], ?_⟩
    simp [sanitizeValueOperand, dictGetD, dictFind, hnum]
  · simp only [hnum, Bool.false_eq_true, if_false]
    cases hc : pyFloatConv w with
    | error e =>
      refine ⟨.vInt 0, by simp, ?_⟩
      simp [sanitizeValueOperand, dictGetD, dictFind, pyIsinstanceNum]
    | ok q =>
      refine ⟨.vFloat q, by simp, ?_⟩
      simp [sanitizeValueOperand, dictGetD, dictFind, pyIsinstanceNum]

/-- Re-sanitizing a sanitized operand reproduces it exactly. -/
theorem sanitize_operand_idem (v : Value) (side : String) (r : Value)
    (h : _sanitize_operand v side = .ok (some r)) :
    _sanitize_operand r side = .ok (some r) := by
  cases v with
  | vDict kvs =>
    rw [_sanitize_operand] at h
    by_cases ht : valueIsStrLit (dictGetD kvs "type" (.vStr "indicator")) "value" = true
    · rw [if_pos ht] at h
      simp only [Except.ok.injEq, Option.some.injEq] at h
      obtain ⟨w, hw, hfix⟩ := sanitizeValue_fix kvs
      rw [hw] at h
      subst h
      rw [_sanitize_operand]
      simp [dictGetD, dictFind, valueIsStrLit, hfix]
    · rw [if_neg ht] at h
      by_cases hi : valueIsStrLit (dictGetD kvs "type" (.vStr "indicator")) "indicator" = true
      · rw [if_pos hi] at h
        cases hio : sanitizeIndicatorOperand kvs side with
        | error e => rw [hio] at h; simp at h
        | ok r0 =>
          rw [hio] at h
          simp only [Except.ok.injEq, Option.some.injEq] at h
          subst h
          obtain ⟨name, tf, off, paramsV, extra, hr, h1, h2, h3, h4, h5, h6⟩ :=
            sanitizeInd_shape kvs side r0 hio
          subst hr
          rw [_sanitize_operand]
          have htype : dictGetD (sanIndDict name tf off paramsV extra) "type"
              (.vStr "indicator") = .vStr "indicator" := by
            simp [sanIndDict, dictGetD, dictFind_append, dictFind]
          rw [htype]
          simp only [valueIsStrLit]
          rw [sanitizeInd_fix name tf off paramsV extra side h1 h2 h3 h4 h5 h6]
          simp
      · rw [if_neg hi] at h
        simp at h
  | vInt n =>
    rw [_sanitize_operand] at h
    simp at h
    exact fun a ha => Value.noConfusion ha
  | vFloat q =>
    rw [_sanitize_operand] at h
    simp at h
    exact fun a ha => Value.noConfusion ha
  | vStr s =>
    rw [_sanitize_operand] at h
    simp at h
    exact fun a ha => Value.noConfusion ha
  | vBool b =>
    rw [_sanitize_operand] at h
    simp at h
    exact fun a ha => Value.noConfusion ha
  | vNone =>
    rw [_sanitize_operand] at h
    simp at h
    exact fun a ha => Value.noConfusion ha
  | vList xs =>
    rw [_sanitize_operand] at h
    simp at h
    exact fun a ha => Value.noConfusion ha

/-- Re-sanitizing a sanitized condition reproduces it exactly. -/
theorem sanitize_condition_idem (kvs : List (String × Value)) (r : Value)
    (h : _sanitize_condition kvs = .ok (some r)) :
    ∃ rkvs, r = .vDict rkvs ∧ _sanitize_condition rkvs = .ok (some r) := by
  rw [_sanitize_condition] at h
  by_cases hmem : (dictMem kvs "lhs" && dictMem kvs "rhs") = true
  · rw [if_pos hmem] at h
    cases hl : _sanitize_operand (dictGetV kvs "lhs") "lhs" with
    | error e => rw [hl] at h; simp at h
    | ok lres =>
      rw [hl] at h
      cases hr : _sanitize_operand (dictGetV kvs "rhs") "rhs" with
      | error e => rw [hr] at h; simp at h
      | ok rres =>
        rw [hr] at h
        cases lres with
        | none => cases rres <;> simp at h
        | some lv =>
          cases rres with
          | none => simp at h
          | some rv =>
            simp only [Except.ok.injEq, Option.some.injEq] at h
            have hopF : valueIsStrIn
                (if valueIsStrIn (dictGetD kvs "operator" (.vStr ">")) VALID_OPERATORS
                 then dictGetD kvs "operator" (.vStr ">") else .vStr ">")
                VALID_OPERATORS = true := by
              by_cases hop : valueIsStrIn (dictGetD kvs "operator" (.vStr ">"))
                  VALID_OPERATORS = true
              · rw [if_pos hop]; exact hop
              · rw [if_neg hop]; decide
            set opF := (if valueIsStrIn (dictGetD kvs "operator" (.vStr ">")) VALID_OPERATORS
                 then dictGetD kvs "operator" (.vStr ">") else .vStr ">") with hopFdef
            have hlfix := sanitize_operand_idem _ _ _ hl
            have hrfix := sanitize_operand_idem _ _ _ hr
            by_cases happ : valueIsStrLit opF "≈ (approx)" = true
            · rw [if_pos happ] at h
              subst h
              refine ⟨_, rfl, ?_⟩
              rw [_sanitize_condition]
              simp only [List.cons_append, List.nil_append]
              have hmem2 : (dictMem [("lhs", lv), ("operator", opF), ("rhs", rv),
                  ("tolerance", dictGetD kvs "tolerance" (.vFloat 1))] "lhs" &&
                  dictMem [("lhs", lv), ("operator", opF), ("rhs", rv),
                  ("tolerance", dictGetD kvs "tolerance" (.vFloat 1))] "rhs") = true := by
                simp [dictMem, dictFind]
              rw [if_pos hmem2]
              have hgl : dictGetV [("lhs", lv), ("operator", opF), ("rhs", rv),
                  ("tolerance", dictGetD kvs "tolerance" (.vFloat 1))] "lhs" = lv := by
                simp [dictGetV, dictGetD, dictFind]
              have hgr : dictGetV [("lhs", lv), ("operator", opF), ("rhs", rv),
                  ("tolerance", dictGetD kvs "tolerance" (.vFloat 1))] "rhs" = rv := by
                simp [dictGetV, dictGetD, dictFind]
              have hgo : dictGetD [("lhs", lv), ("operator", opF), ("rhs", rv),
                  ("tolerance", dictGetD kvs "tolerance" (.vFloat 1))] "operator"
                  (.vStr ">") = opF := by
                simp [dictGetD, dictFind]
              have hgt : dictGetD [("lhs", lv), ("operator", opF), ("rhs", rv),
                  ("tolerance", dictGetD kvs "tolerance" (.vFloat 1))] "tolerance"
                  (.vFloat 1) = dictGetD kvs "tolerance" (.vFloat 1) := by
                simp [dictGetD, dictFind]
              rw [hgl, hgr, hlfix, hrfix, hgo]
              simp only [hopF, if_true, happ, hgt]
            · rw [if_neg happ] at h
              subst h
              refine ⟨_, rfl, ?_⟩
              rw [_sanitize_condition]
              have hmem2 : (dictMem [("lhs", lv), ("operator", opF), ("rhs", rv)] "lhs" &&
                  dictMem [("lhs", lv), ("operator", opF), ("rhs", rv)] "rhs") = true := by
                simp [dictMem, dictFind]
              rw [if_pos hmem2]
              have hgl : dictGetV [("lhs", lv), ("operator", opF), ("rhs", rv)] "lhs"
                  = lv := by simp [dictGetV, dictGetD, dictFind]
              have hgr : dictGetV [("lhs", lv), ("operator", opF), ("rhs", rv)] "rhs"
                  = rv := by simp [dictGetV, dictGetD, dictFind]
              have hgo : dictGetD [("lhs", lv), ("operator", opF), ("rhs", rv)] "operator"
                  (.vStr ">") = opF := by simp [dictGetD, dictFind]
              rw [hgl, hgr, hlfix, hrfix, hgo]
              simp only [hopF, if_true, happ, Bool.false_eq_true, if_false]
  · rw [if_neg hmem] at h
    simp at h

/-- Re-running the sanitize loop on its own output reproduces it. -/
theorem sanitize_loop_idem (cs : List Value) (out : List Value)
    (h : sanitizeCondListLoop cs = .ok out) :
    sanitizeCondListLoop out = .ok out := by
  induction cs generalizing out with
  | nil =>
    rw [sanitizeCondListLoop] at h
    simp only [Except.ok.injEq] at h
    subst h
    rfl
  | cons c rest ih =>
    cases c with
    | vDict kvs =>
      rw [sanitizeCondListLoop] at h
      cases hc : _sanitize_condition kvs with
      | error e => rw [hc] at h; simp at h
      | ok o =>
        rw [hc] at h
        cases o with
        | none => exact ih _ h
        | some sc =>
          cases hrest : sanitizeCondListLoop rest with
          | error e => rw [hrest] at h; simp at h
          | ok scs =>
            rw [hrest] at h
            simp only [Except.ok.injEq] at h
            subst h
            obtain ⟨rkvs, hsc, hfix⟩ := sanitize_condition_idem kvs sc hc
            subst hsc
            rw [sanitizeCondListLoop, hfix, ih _ hrest]
    | vInt n => exact ih _ h
    | vFloat q => exact ih _ h
    | vStr s => exact ih _ h
    | vBool b => exact ih _ h
    | vNone => exact ih _ h
    | vList xs => exact ih _ h

theorem dropWhile_dropTrailingWS_self (u : List Char) (h : u.dropWhile wsChar = u) :
    (dropTrailingWS u).dropWhile wsChar = dropTrailingWS u := by
  cases u with
  | nil => simp [dropTrailingWS]
  | cons a t =>
    have ha : wsChar a = false := by
      by_cases hwa : wsChar a
      · rw [List.dropWhile_cons_of_pos hwa] at h
        have := (List.dropWhile_sublist (l := t) wsChar).length_le
        rw [h] at this
        simp at this
      · simpa using hwa
    have heq : dropTrailingWS (a :: t) = (a :: t).rdropWhile wsChar := rfl
    rw [heq]
    have hne : (a :: t).rdropWhile wsChar ≠ [] := by
      rw [Ne, List.rdropWhile_eq_nil_iff]
      intro hall
      exact absurd (hall a (by simp)) (by simp [ha])
    obtain ⟨s, hs⟩ := List.rdropWhile_prefix (l := a :: t) (p := wsChar)
    cases hr : (a :: t).rdropWhile wsChar with
    | nil => exact absurd hr hne
    | cons b X =>
      rw [hr] at hs
      have hb : b = a := by
        have := hs
        simp at this
        exact this.1
      subst hb
      exact List.dropWhile_cons_of_neg (by simp [ha])

theorem stripChars_idem (l : List Char) : stripChars (stripChars l) = stripChars l := by
  unfold stripChars
  rw [dropWhile_dropTrailingWS_self (l.dropWhile wsChar)
        (List.dropWhile_idempotent wsChar l)]
  show List.rdropWhile wsChar (List.rdropWhile wsChar (l.dropWhile wsChar))
      = List.rdropWhile wsChar (l.dropWhile wsChar)
  exact List.rdropWhile_idempotent wsChar (l.dropWhile wsChar)

theorem pyStripStr_idem (s : String) : pyStripStr (pyStripStr s) = pyStripStr s :=
  congrArg String.mk (stripChars_idem s.data)

/-- The output of a successful `sanitize_strategy` pass is a fixed
point of `sanitize_strategy`. -/
theorem sanitize_strategy_output_fix (nm : String) (d : Value) (scs : List Value)
    (hnm : pyStripStr nm = nm) (hloop : sanitizeCondListLoop scs = .ok scs) :
    sanitize_strategy (.vDict [("name", .vStr nm), ("description", d),
        ("conditions", .vList scs)]) =
      .ok (.vDict [("name", .vStr nm), ("description", d),
        ("conditions", .vList scs)]) := by
  rw [sanitize_strategy]
  have hgn : dictGetD [("name", Value.vStr nm), ("description", d),
      ("conditions", Value.vList scs)] "name" (.vStr "Unnamed Strategy")
      = .vStr nm := by simp [dictGetD, dictFind]
  have hgc : dictGetD [("name", Value.vStr nm), ("description", d),
      ("conditions", Value.vList scs)] "conditions" (.vList [])
      = .vList scs := by simp [dictGetD, dictFind]
  have hgd : dictGetD [("name", Value.vStr nm), ("description", d),
      ("conditions", Value.vList scs)] "description" (.vStr "")
      = d := by simp [dictGetD, dictFind]
  rw [hgn]
  simp only [pyStripOf, hnm, hgc, hgd, hloop]

/-- Claim C3: sanitization is idempotent.  For every input `x`,
re-sanitizing the result of `sanitize_strategy x` reproduces it
structurally unchanged (stated through `Except.bind`, so an exception
from the first pass propagates identically). -/
theorem sanitize_strategy_idempotent (x : Value) :
    (sanitize_strategy x).bind sanitize_strategy = sanitize_strategy x := by
  cases x with
  | vDict kvs =>
    rw [sanitize_strategy]
    cases hs : pyStripOf (dictGetD kvs "name" (.vStr "Unnamed Strategy")) with
    | error e => rfl
    | ok nm =>
      have hnm : pyStripStr nm = nm := by
        unfold pyStripOf at hs
        cases hv : dictGetD kvs "name" (.vStr "Unnamed Strategy") <;> rw [hv] at hs <;>
          simp at hs
        rw [← hs]
        exact pyStripStr_idem _
      dsimp only
      cases hl : sanitizeCondListLoop
          (match dictGetD kvs "conditions" (.vList []) with
           | .vList cs => cs
           | _ => []) with
      | error e => rfl
      | ok scs =>
        exact sanitize_strategy_output_fix nm _ scs hnm (sanitize_loop_idem _ _ hl)
  | vInt n => rfl
  | vFloat q => rfl
  | vStr s => rfl
  | vBool b => rfl
  | vNone => rfl
  | vList xs => rfl

/-- The error component of the conditions loop is exactly one
`Condition {i+1}: {reason}` entry per failing condition, in order. -/
theorem validateConditionsLoop_errs (cs : List Value) (i : Nat) (es ws : List String)
    (h : validateConditionsLoop cs i = .ok (es, ws)) :
    es = (List.enumFrom i cs).filterMap condErrF := by
  induction cs generalizing i es ws with
  | nil =>
    rw [validateConditionsLoop] at h
    simp only [Except.ok.injEq, Prod.mk.injEq] at h
    simp [← h.1]
  | cons c rest ih =>
    rw [validateConditionsLoop] at h
    cases hc : validate_condition c i with
    | error e => rw [hc] at h; simp at h
    | ok p1 =>
      obtain ⟨⟨ok1, msg⟩, w⟩ := p1
      rw [hc] at h
      cases hl : validateConditionsLoop rest (i + 1) with
      | error e => rw [hl] at h; simp at h
      | ok p2 =>
        obtain ⟨es2, ws2⟩ := p2
        rw [hl] at h
        simp only [Except.ok.injEq, Prod.mk.injEq] at h
        obtain ⟨hes, hws⟩ := h
        rw [List.enumFrom_cons, List.filterMap_cons]
        cases ok1 with
        | true =>
          have : condErrF (i, c) = none := by simp [condErrF, hc]
          rw [this, ← hes]
          simp [ih _ _ _ hl]
        | false =>
          have : condErrF (i, c)
              = some ("Condition " ++ toString (i + 1) ++ ": " ++ msg) := by
            simp [condErrF, hc]
          rw [this, ← hes]
          simp [ih _ _ _ hl]

/-- Claim C6: when the `conditions` field is a non-empty list and
validation completes, every element of the list is validated (no
short-circuit): the returned error list is the name errors followed by
exactly one error `Condition {i+1}: {reason}` for each failing
condition at 0-based position `i`, in condition order. -/
theorem validate_strategy_reports_each_failing_condition
    (kvs : List (String × Value)) (cs : List Value) (v : Bool) (es ws : List String)
    (hc : dictFind kvs "conditions" = some (.vList cs)) (hne : cs ≠ [])
    (h : validate_strategy (.vDict kvs) = .ok (v, es, ws)) :
    es = nameErrs kvs ++ cs.enum.filterMap condErrF := by
  rw [validate_strategy] at h
  dsimp only at h
  rw [hc] at h
  dsimp only at h
  have hemp : cs.isEmpty = false := by
    cases cs with
    | nil => exact absurd rfl hne
    | cons a t => rfl
  rw [hemp] at h
  simp only [Bool.false_eq_true, if_false] at h
  cases hl : validateConditionsLoop cs 0 with
  | error e => rw [hl] at h; simp at h
  | ok p =>
    obtain ⟨ces, cws⟩ := p
    rw [hl] at h
    simp only [Except.ok.injEq, Prod.mk.injEq] at h
    rw [← h.2.1]
    rw [validateConditionsLoop_errs cs 0 ces cws hl]
    rfl

theorem validate_strategy_reports_each_failing_condition_witness :
    (["Condition 1: Missing 'lhs' (left-hand side)",
      "Condition 2: Missing 'operator'"] : List String)
      = nameErrs [("name", Value.vStr "S"), ("description", Value.vStr "d"),
          ("conditions", Value.vList [Value.vDict [], Value.vDict [("lhs", Value.vStr "x")]])]
        ++ ([Value.vDict [], Value.vDict [("lhs", Value.vStr "x")]] : List Value).enum.filterMap
            condErrF :=
  validate_strategy_reports_each_failing_condition
    [("name", Value.vStr "S"), ("description", Value.vStr "d"),
     ("conditions", Value.vList [Value.vDict [], Value.vDict [("lhs", Value.vStr "x")]])]
    [Value.vDict [], Value.vDict [("lhs", Value.vStr "x")]]
    false _ [] rfl (by simp) rfl

/-- When every condition passes, the loop contributes no errors. -/
theorem validateConditionsLoop_all_ok (cs : List Value) (i : Nat)
    (h : ∀ p ∈ List.enumFrom i cs, ∃ w, validate_condition p.2 p.1 = .ok ((true, ""), w)) :
    ∃ ws, validateConditionsLoop cs i = .ok ([], ws) := by
  induction cs generalizing i with
  | nil => exact ⟨[], rfl⟩
  | cons c rest ih =>
    obtain ⟨w, hw⟩ := h (i, c) (by simp)
    obtain ⟨ws2, hws2⟩ := ih (i + 1) (fun p hp => h p (by simp [hp]))
    refine ⟨w ++ ws2, ?_⟩
    rw [validateConditionsLoop, hw, hws2]
    rfl

/-- Claim C7, as amended: `is_valid` is `true` iff the error list is
empty; and a strategy object whose `name` is a string that is
non-empty after stripping and whose `conditions` is a non-empty list
of conditions that all pass validates with `is_valid = True` and an
empty error list, regardless of how many warnings accumulate.  (The
claim's unqualified "every strategy where every condition passes" is
false on the code: without a valid `name` the strategy is still
invalid — see the counterexample.) -/
theorem validate_strategy_valid_iff_no_errors :
    (∀ s v es ws, validate_strategy s = .ok (v, es, ws) → (v = true ↔ es = [])) ∧
    (∀ kvs nm cs, dictFind kvs "name" = some (.vStr nm) →
      (pyStripStr nm).isEmpty = false →
      dictFind kvs "conditions" = some (.vList cs) → cs ≠ [] →
      (∀ p ∈ cs.enum, ∃ w, validate_condition p.2 p.1 = .ok ((true, ""), w)) →
      ∃ ws, validate_strategy (.vDict kvs) = .ok (true, [], ws)) := by
  constructor
  · intro s v es ws h
    cases s with
    | vDict kvs =>
      rw [validate_strategy] at h
      dsimp only at h
      cases hc : dictFind kvs "conditions" with
      | none =>
        rw [hc] at h
        simp only [Except.ok.injEq, Prod.mk.injEq] at h
        rw [← h.1, ← h.2.1]
        exact List.isEmpty_iff
      | some cv =>
        rw [hc] at h
        cases cv with
        | vList cs =>
          dsimp only at h
          by_cases hemp : cs.isEmpty = true
          · rw [hemp] at h
            simp only [if_true] at h
            simp only [Except.ok.injEq, Prod.mk.injEq] at h
            rw [← h.1, ← h.2.1]
            exact List.isEmpty_iff
          · rw [Bool.not_eq_true] at hemp
            rw [hemp] at h
            simp only [Bool.false_eq_true, if_false] at h
            cases hl : validateConditionsLoop cs 0 with
            | error e => rw [hl] at h; simp at h
            | ok p =>
              obtain ⟨ces, cws⟩ := p
              rw [hl] at h
              simp only [Except.ok.injEq, Prod.mk.injEq] at h
              rw [← h.1, ← h.2.1]
              exact List.isEmpty_iff
        | vInt n =>
          dsimp only at h
          simp only [Except.ok.injEq, Prod.mk.injEq] at h
          rw [← h.1, ← h.2.1]
          exact List.isEmpty_iff
        | vFloat q =>
          dsimp only at h
          simp only [Except.ok.injEq, Prod.mk.injEq] at h
          rw [← h.1, ← h.2.1]
          exact List.isEmpty_iff
        | vStr s =>
          dsimp only at h
          simp only [Except.ok.injEq, Prod.mk.injEq] at h
          rw [← h.1, ← h.2.1]
          exact List.isEmpty_iff
        | vBool b =>
          dsimp only at h
          simp only [Except.ok.injEq, Prod.mk.injEq] at h
          rw [← h.1, ← h.2.1]
          exact List.isEmpty_iff
        | vNone =>
          dsimp only at h
          simp only [Except.ok.injEq, Prod.mk.injEq] at h
          rw [← h.1, ← h.2.1]
          exact List.isEmpty_iff
        | vDict kvs2 =>
          dsimp only at h
          simp only [Except.ok.injEq, Prod.mk.injEq] at h
          rw [← h.1, ← h.2.1]
          exact List.isEmpty_iff
    | vInt n =>
      have h2 : (Except.ok (false, ["Strategy must be a JSON object"], [])
          : Except PyErr (Bool × List String × List String)) = .ok (v, es, ws) := h
      simp only [Except.ok.injEq, Prod.mk.injEq] at h2
      rw [← h2.1, ← h2.2.1]
      simp
    | vFloat q =>
      have h2 : (Except.ok (false, ["Strategy must be a JSON object"], [])
          : Except PyErr (Bool × List String × List String)) = .ok (v, es, ws) := h
      simp only [Except.ok.injEq, Prod.mk.injEq] at h2
      rw [← h2.1, ← h2.2.1]
      simp
    | vStr s =>
      have h2 : (Except.ok (false, ["Strategy must be a JSON object"], [])
          : Except PyErr (Bool × List String × List String)) = .ok (v, es, ws) := h
      simp only [Except.ok.injEq, Prod.mk.injEq] at h2
      rw [← h2.1, ← h2.2.1]
      simp
    | vBool b =>
      have h2 : (Except.ok (false, ["Strategy must be a JSON object"], [])
          : Except PyErr (Bool × List String × List String)) = .ok (v, es, ws) := h
      simp only [Except.ok.injEq, Prod.mk.injEq] at h2
      rw [← h2.1, ← h2.2.1]
      simp
    | vNone =>
      have h2 : (Except.ok (false, ["Strategy must be a JSON object"], [])
          : Except PyErr (Bool × List String × List String)) = .ok (v, es, ws) := h
      simp only [Except.ok.injEq, Prod.mk.injEq] at h2
      rw [← h2.1, ← h2.2.1]
      simp
    | vList xs =>
      have h2 : (Except.ok (false, ["Strategy must be a JSON object"], [])
          : Except PyErr (Bool × List String × List String)) = .ok (v, es, ws) := h
      simp only [Except.ok.injEq, Prod.mk.injEq] at h2
      rw [← h2.1, ← h2.2.1]
      simp
  · intro kvs nm cs hname hstrip hc hne hall
    have hnerr : nameErrs kvs = [] := by
      rw [nameErrs, hname]
      simp [hstrip]
    obtain ⟨ws0, hl⟩ := validateConditionsLoop_all_ok cs 0 hall
    have hemp : cs.isEmpty = false := by
      cases cs with
      | nil => exact absurd rfl hne
      | cons a t => rfl
    refine ⟨descWarns kvs ++ ws0, ?_⟩
    rw [validate_strategy]
    dsimp only
    rw [hc]
    dsimp only
    rw [hemp]
    simp only [Bool.false_eq_true, if_false]
    rw [hl, hnerr]
    rfl

theorem validate_strategy_valid_iff_no_errors_witness :
    ∃ ws, validate_strategy (.vDict [("name", Value.vStr "Oversold"),
        ("conditions", Value.vList [goodCond])]) = .ok (true, [], ws) :=
  validate_strategy_valid_iff_no_errors.2
    [("name", Value.vStr "Oversold"), ("conditions", Value.vList [goodCond])]
    "Oversold" [goodCond] rfl rfl rfl (by simp)
    (by
      intro p hp
      simp only [List.enum, List.enumFrom_cons, List.enumFrom, List.mem_singleton] at hp
      subst hp
      exact ⟨[], rfl⟩)

/-- Claim C8: `multiplier` / `add_offset` on an LHS indicator operand
never cause an error — when the checks before the RHS-only section
fail the result is unchanged by these fields, and when they pass the
operand still validates, with one warning appended per present field;
on the RHS a present non-numeric `multiplier` / `add_offset` makes
validation of the operand fail. -/
theorem validate_indicator_rhs_only_fields (ind : List (String × Value)) :
    (∀ e w, indPre ind = .ok ((false, e), w) →
        validate_indicator ind "lhs" = .ok ((false, e), w)) ∧
    (∀ e w, indPre ind = .ok ((true, e), w) →
        validate_indicator ind "lhs" = .ok ((true, ""),
          w ++ ((if dictMem ind "multiplier" then
                  ["'multiplier' on LHS will be ignored - only valid for RHS"] else []) ++
                (if dictMem ind "add_offset" then
                  ["'add_offset' on LHS will be ignored - only valid for RHS"] else [])))) ∧
    (∀ e w, indPre ind = .ok ((true, e), w) →
      dictMem ind "multiplier" = true →
      pyIsinstanceNum (dictGetV ind "multiplier") = false →
        validate_indicator ind "rhs" = .ok ((false, "'multiplier' must be a number"), w)) ∧
    (∀ e w, indPre ind = .ok ((true, e), w) →
      (dictMem ind "multiplier" = false ∨ pyIsinstanceNum (dictGetV ind "multiplier") = true) →
      dictMem ind "add_offset" = true →
      pyIsinstanceNum (dictGetV ind "add_offset") = false →
        validate_indicator ind "rhs" = .ok ((false, "'add_offset' must be a number"), w)) := by
  refine ⟨?_, ?_, ?_, ?_⟩
  · intro e w h
    rw [validate_indicator, h]
  · intro e w h
    rw [validate_indicator, h]
    simp [indRhsStage]
  · intro e w h hm hnum
    rw [validate_indicator, h]
    simp [indRhsStage, hm, hnum]
  · intro e w h hmok ha hnum
    rw [validate_indicator, h]
    rcases hmok with hmok | hmok <;> simp [indRhsStage, hmok, ha, hnum]

theorem validate_indicator_rhs_only_fields_witness :
    validate_indicator [("name", Value.vStr "close"), ("timeframe", Value.vStr "daily"),
        ("multiplier", Value.vStr "x")] "lhs"
      = .ok ((true, ""), ["'multiplier' on LHS will be ignored - only valid for RHS"]) ∧
    validate_indicator [("name", Value.vStr "close"), ("timeframe", Value.vStr "daily"),
        ("multiplier", Value.vStr "x")] "rhs"
      = .ok ((false, "'multiplier' must be a number"), []) := by
  constructor
  · have := (validate_indicator_rhs_only_fields
      [("name", Value.vStr "close"), ("timeframe", Value.vStr "daily"),
       ("multiplier", Value.vStr "x")]).2.1 "" [] rfl
    simpa [dictMem, dictFind] using this
  · exact (validate_indicator_rhs_only_fields
      [("name", Value.vStr "close"), ("timeframe", Value.vStr "daily"),
       ("multiplier", Value.vStr "x")]).2.2.1 "" [] rfl rfl rfl

/-- Claim C10: `validate_condition` reports at most one failure
reason — the first failing check in the fixed order (object shape;
required keys `lhs`, `operator`, `rhs`; operator validity; LHS
operand; RHS operand).  The LHS-failure case holds for arbitrary `rhs`
content, so an invalid LHS suppresses any RHS problems. -/
theorem validate_condition_single_first_failure :
    (∀ (c : Value) (i : Nat), c.isDictB = false →
        validate_condition c i = .ok ((false, "Condition must be an object"), [])) ∧
    (∀ kvs i, dictMem kvs "lhs" = false →
        validate_condition (.vDict kvs) i
          = .ok ((false, "Missing 'lhs' (left-hand side)"), [])) ∧
    (∀ kvs i, dictMem kvs "lhs" = true → dictMem kvs "operator" = false →
        validate_condition (.vDict kvs) i = .ok ((false, "Missing 'operator'"), [])) ∧
    (∀ kvs i, dictMem kvs "lhs" = true → dictMem kvs "operator" = true →
      dictMem kvs "rhs" = false →
        validate_condition (.vDict kvs) i
          = .ok ((false, "Missing 'rhs' (right-hand side)"), [])) ∧
    (∀ kvs i, dictMem kvs "lhs" = true → dictMem kvs "operator" = true →
      dictMem kvs "rhs" = true →
      valueIsStrIn (dictGetV kvs "operator") VALID_OPERATORS = false →
        validate_condition (.vDict kvs) i
          = .ok ((false, "Invalid operator '" ++ pyStrOf (dictGetV kvs "operator")
              ++ "'. Valid: " ++ OPERATORS_REPR), [])) ∧
    (∀ kvs i e w1, dictMem kvs "lhs" = true → dictMem kvs "operator" = true →
      dictMem kvs "rhs" = true →
      valueIsStrIn (dictGetV kvs "operator") VALID_OPERATORS = true →
      validate_operand (dictGetV kvs "lhs") "lhs" = .ok ((false, e), w1) →
        validate_condition (.vDict kvs) i
          = .ok ((false, "LHS error: " ++ e), tolWarnOf kvs i ++ w1)) ∧
    (∀ kvs i e1 w1 e2 w2, dictMem kvs "lhs" = true → dictMem kvs "operator" = true →
      dictMem kvs "rhs" = true →
      valueIsStrIn (dictGetV kvs "operator") VALID_OPERATORS = true →
      validate_operand (dictGetV kvs "lhs") "lhs" = .ok ((true, e1), w1) →
      validate_operand (dictGetV kvs "rhs") "rhs" = .ok ((false, e2), w2) →
        validate_condition (.vDict kvs) i
          = .ok ((false, "RHS error: " ++ e2), tolWarnOf kvs i ++ w1 ++ w2)) := by
  refine ⟨?_, ?_, ?_, ?_, ?_, ?_, ?_⟩
  · intro c i hc
    cases c with
    | vDict kvs => exact absurd hc (by simp [Value.isDictB])
    | vInt n => rfl
    | vFloat q => rfl
    | vStr s => rfl
    | vBool b => rfl
    | vNone => rfl
    | vList xs => rfl
  · intro kvs i h1
    rw [validate_condition]
    simp [h1]
  · intro kvs i h1 h2
    rw [validate_condition]
    simp [h1, h2]
  · intro kvs i h1 h2 h3
    rw [validate_condition]
    simp [h1, h2, h3]
  · intro kvs i h1 h2 h3 h4
    rw [validate_condition]
    simp [h1, h2, h3, h4]
  · intro kvs i e w1 h1 h2 h3 h4 h5
    rw [validate_condition]
    simp [h1, h2, h3, h4, h5]
  · intro kvs i e1 w1 e2 w2 h1 h2 h3 h4 h5 h6
    rw [validate_condition]
    simp [h1, h2, h3, h4, h5, h6, List.append_assoc]

theorem validate_condition_single_first_failure_witness :
    validate_condition (.vDict [("lhs", Value.vStr "x"), ("operator", Value.vStr ">"),
        ("rhs", Value.vStr "y")]) 0
      = .ok ((false, "LHS error: Operand must be an object"), []) := by
  have := validate_condition_single_first_failure.2.2.2.2.2.1
    [("lhs", Value.vStr "x"), ("operator", Value.vStr ">"), ("rhs", Value.vStr "y")] 0
    "Operand must be an object" [] rfl rfl rfl rfl rfl
  simpa [tolWarnOf, dictGetV, dictGetD, dictFind, valueIsStrLit] using this
